import Mathlib

/-!
Verification development for the `resource-remover` Kubernetes mutating
admission webhook.

The embedding follows the Go source of the scaled revision (the server that
scales pod resource requests by 1/5, removes limits, disables HPAs and sets
Deployment replicas to 1).  Quantities are modelled the way the Go code reads
them: CPU as an integer number of milli-units (`Quantity.MilliValue()`),
memory as an integer number of bytes (`Quantity.Value()`).  Go's `/` on
integers truncates toward zero, which is `Int.tdiv` here.  Go maps that can be
nil are modelled as `Option` over an association list; a map key that may be
absent is an `Option` field.
-/

namespace ResourceRemover

/-- Association-list lookup over a possibly-nil map (Go: indexing a nil map
yields the zero value with `ok = false`). -/
def annLookup (a : Option (List (String × String))) (k : String) : Option String :=
  (a.getD []).lookup k

/-- The well-known skip key, `resource-remover.nais.io/skip`. -/
def skipKey : String := "resource-remover.nais.io/skip"

/-- The eviction-guard key, `cluster-autoscaler.kubernetes.io/safe-to-evict`. -/
def evictKey : String := "cluster-autoscaler.kubernetes.io/safe-to-evict"

/-- One of the two resource maps of a container (`requests` or `limits`).
`cpu` is in milli-units, `mem` in bytes; `none` means the key is absent. -/
structure ResourceList where
  cpu : Option Int
  mem : Option Int
deriving DecidableEq, Repr

/-- A container as read by `handleMutate`: only its two resource maps matter.
`none` models a nil Go map. -/
structure Container where
  requests : Option ResourceList
  limits : Option ResourceList
deriving DecidableEq, Repr

/-- A pod as read by `handleMutate`. -/
structure Pod where
  ns : String
  name : String
  anns : Option (List (String × String))
  containers : List Container
  initContainers : List Container
deriving DecidableEq, Repr

/-- Structured JSON-Pointer paths emitted by the three handlers.
`containerRes isInit isLimit isMem i` stands for
`/spec/{containers|initContainers}/i/resources/{requests|limits}/{cpu|memory}`. -/
inductive PatchPath where
  | safeToEvict
  | containerRes (isInit : Bool) (isLimit : Bool) (isMem : Bool) (i : Nat)
  | minReplicas
  | maxReplicas
  | replicas
deriving DecidableEq, Repr

/-- Rendering of a structured path to the literal JSON-Pointer string built by
the Go `fmt.Sprintf` calls. -/
def PatchPath.render : PatchPath → String
  | .safeToEvict =>
      "/metadata/annotations/cluster-autoscaler.kubernetes.io~1safe-to-evict"
  | .containerRes isInit isLimit isMem i =>
      "/spec/" ++ (if isInit then "initContainers/" else "containers/")
        ++ toString i ++ "/resources/"
        ++ (if isLimit then "limits/" else "requests/")
        ++ (if isMem then "memory" else "cpu")
  | .minReplicas => "/spec/minReplicas"
  | .maxReplicas => "/spec/maxReplicas"
  | .replicas => "/spec/replicas"

/-- A JSON value carried by a patch operation.  `cpuMilli v` is serialized by
Go as the string `"<v>m"`, `memBytes v` as the string `"<v>"`, `int v` as the
JSON number `v`. -/
inductive PatchValue where
  | cpuMilli (v : Int)
  | memBytes (v : Int)
  | int (v : Int)
deriving DecidableEq, Repr

/-- The wire form of a patch value. -/
def PatchValue.render : PatchValue → String
  | .cpuMilli v => toString v ++ "m"
  | .memBytes v => toString v
  | .int v => toString v

/-- A JSON Patch operation (Go struct `patchOperation`). -/
structure PatchOp where
  op : String
  path : PatchPath
  value : Option PatchValue
deriving DecidableEq, Repr

/-- CPU request scaling of the scaled revision: `reducedCPU := cpu.MilliValue() / 5;
if reducedCPU < 1 { reducedCPU = 1 }`. -/
def scaleCpu (v : Int) : Int :=
  if Int.tdiv v 5 < 1 then 1 else Int.tdiv v 5

/-- Memory request scaling: `reducedMem := mem.Value() / 5;
if reducedMem < 1024*1024 { reducedMem = 1024*1024 }`. -/
def scaleMem (v : Int) : Int :=
  if Int.tdiv v 5 < 1024 * 1024 then 1024 * 1024 else Int.tdiv v 5

/-- Patches emitted for one container at index `i` of the container list
(`isInit = true` for the init-container list), mirroring the loop body of
`handleMutate` in the scaled revision. -/
def containerPatches (isInit : Bool) (i : Nat) (c : Container) : List PatchOp :=
  (match c.requests with
   | none => []
   | some req =>
       (match req.cpu with
        | some v =>
            [⟨"replace", .containerRes isInit false false i,
              some (.cpuMilli (scaleCpu v))⟩]
        | none => []) ++
       (match req.mem with
        | some v =>
            [⟨"replace", .containerRes isInit false true i,
              some (.memBytes (scaleMem v))⟩]
        | none => [])) ++
  (match c.limits with
   | none => []
   | some lim =>
       (match lim.cpu with
        | some _ => [⟨"remove", .containerRes isInit true false i, none⟩]
        | none => []) ++
       (match lim.mem with
        | some _ => [⟨"remove", .containerRes isInit true true i, none⟩]
        | none => []))

/-- The `for i, container := range` loop: patches for a container list,
indices starting at `k`. -/
def containersPatches (isInit : Bool) : Nat → List Container → List PatchOp
  | _, [] => []
  | k, c :: cs => containerPatches isInit k c ++ containersPatches isInit (k + 1) cs

/-- The `safe-to-evict` removal: emitted iff the annotation map is non-nil and
holds `evictKey` with value exactly `"false"`. -/
def evictPatch (pod : Pod) : List PatchOp :=
  match pod.anns with
  | none => []
  | some m =>
      if m.lookup evictKey = some "false" then
        [⟨"remove", .safeToEvict, none⟩]
      else []

/-- The full patch list generated by `handleMutate` (scaled revision) for a
non-skipped pod. -/
def podPatches (pod : Pod) : List PatchOp :=
  evictPatch pod
    ++ containersPatches false 0 pod.containers
    ++ containersPatches true 0 pod.initContainers

/-- The skip decision of `handleMutate`: the pod's annotation map is non-nil
and holds `skipKey` with value exactly `"true"`. -/
def skipPod (pod : Pod) : Bool :=
  match pod.anns with
  | none => false
  | some m => m.lookup skipKey = some "true"

/-! ### JSON Patch application (RFC 6902 semantics, specialised to the paths
this system emits).  `modifyAt` is positional JSON-Pointer indexing into a
container array. -/

/-- Apply `f` to the element at position `n`, identity when out of range. -/
def modifyAt (f : α → α) : Nat → List α → List α
  | _, [] => []
  | 0, x :: xs => f x :: xs
  | n + 1, x :: xs => x :: modifyAt f n xs

/-- Set (`some v`) or remove (`none`) the cpu or memory entry of a resource
map. -/
def ResourceList.setEntry (isMem : Bool) (v : Option Int) (rl : ResourceList) :
    ResourceList :=
  if isMem then { rl with mem := v } else { rl with cpu := v }

/-- Apply a set/remove of a cpu or memory entry under `requests` or `limits`
of one container.  When the targeted map is absent the patch's precondition
fails; generated patches never hit that case, and application is the
identity there. -/
def Container.applyField (c : Container) (isLimit isMem : Bool)
    (v : Option Int) : Container :=
  if isLimit then { c with limits := c.limits.map (ResourceList.setEntry isMem v) }
  else { c with requests := c.requests.map (ResourceList.setEntry isMem v) }

/-- The container-level effect of one patch operation. -/
def opOnContainer (op : String) (isLimit isMem : Bool) (value : Option PatchValue)
    (c : Container) : Container :=
  if op = "remove" then c.applyField isLimit isMem none
  else if op = "replace" then
    match value with
    | some (.cpuMilli v) => c.applyField isLimit isMem (some v)
    | some (.memBytes v) => c.applyField isLimit isMem (some v)
    | _ => c
  else c

/-- Apply one generated patch operation to a pod. -/
def Pod.applyOp (pod : Pod) (op : PatchOp) : Pod :=
  match op.path with
  | .safeToEvict =>
      if op.op = "remove" then
        { pod with anns := pod.anns.map (List.filter (fun kv => kv.1 ≠ evictKey)) }
      else pod
  | .containerRes isInit isLimit isMem i =>
      if isInit then
        { pod with initContainers :=
            modifyAt (opOnContainer op.op isLimit isMem op.value) i pod.initContainers }
      else
        { pod with containers :=
            modifyAt (opOnContainer op.op isLimit isMem op.value) i pod.containers }
  | _ => pod

/-- Apply a patch list left to right. -/
def Pod.applyPatches (pod : Pod) (ops : List PatchOp) : Pod :=
  ops.foldl Pod.applyOp pod

/-! ### Admission responses and handler cores -/

/-- The fields of `admissionv1.AdmissionResponse` this system sets.  `patch`
holds the (decoded) operation list when the field is populated. -/
structure AdmissionResponse where
  uid : String
  allowed : Bool
  patchType : Option String
  patch : Option (List PatchOp)
deriving DecidableEq, Repr

/-- The operation list carried by a response (`[]` when the patch field is
absent). -/
def AdmissionResponse.patchOps (r : AdmissionResponse) : List PatchOp :=
  r.patch.getD []

/-- The allow-only response sent on the skip path: no patch fields. -/
def skipResponse (uid : String) : AdmissionResponse :=
  ⟨uid, true, none, none⟩

/-- The mutation response: `PatchType` and `Patch` are set unconditionally,
also when `ops` is empty (the Go code marshals the patch slice and sets both
fields on every non-skip request). -/
def mutateResponse (uid : String) (ops : List PatchOp) : AdmissionResponse :=
  ⟨uid, true, some "JSONPatch", some ops⟩

/-- Core of `handleMutate` (scaled revision) after successful decoding. -/
def handleMutateCore (uid : String) (pod : Pod) : AdmissionResponse :=
  if skipPod pod then skipResponse uid
  else mutateResponse uid (podPatches pod)

/-- Modelled from the spec: the excluded-namespace list.  The namespace
exclusion lives in the webhook registration manifests (Helm chart,
`namespaceSelector`), which are not among the provided source files; the
spec and the README state that the system excludes the cluster's system
namespace (`kube-system`) from all mutation. -/
def excludedNamespaces : List String := ["kube-system"]

/-- Modelled from the spec: the admission pipeline for pods.  Objects in an
excluded namespace never reach the handler and are allowed unchanged; this
gate precedes everything the handler does, in particular the
skip-annotation check. -/
def podAdmission (uid : String) (pod : Pod) : AdmissionResponse :=
  if pod.ns ∈ excludedNamespaces then skipResponse uid
  else handleMutateCore uid pod

/-! ### HPA handler (`handleMutateHPA`) -/

/-- The spec fields of an HPA as decoded by `handleMutateHPA`:
`minReplicas *int32`, `maxReplicas int32`. -/
structure HpaSpec where
  minReplicas : Option Int
  maxReplicas : Int
deriving DecidableEq, Repr

/-- An HPA as decoded by `handleMutateHPA` (anonymous Go struct). -/
structure HpaObj where
  ns : String
  name : String
  anns : Option (List (String × String))
  spec : HpaSpec
deriving DecidableEq, Repr

/-- Skip decision of `handleMutateHPA`: a plain map index (Go indexes a
possibly-nil map directly). -/
def skipHpa (h : HpaObj) : Bool :=
  annLookup h.anns skipKey = some "true"

/-- The patch list generated by `handleMutateHPA` for a non-skipped HPA. -/
def hpaPatches (s : HpaSpec) : List PatchOp :=
  (match s.minReplicas with
   | none => [⟨"add", .minReplicas, some (.int 1)⟩]
   | some m =>
       if m ≠ 1 then [⟨"replace", .minReplicas, some (.int 1)⟩] else []) ++
  (if s.maxReplicas ≠ 1 then [⟨"replace", .maxReplicas, some (.int 1)⟩] else [])

/-- Apply one generated patch operation to an HPA spec. -/
def HpaSpec.applyOp (s : HpaSpec) (op : PatchOp) : HpaSpec :=
  match op.path, op.value with
  | .minReplicas, some (.int v) =>
      if op.op = "add" ∨ op.op = "replace" then { s with minReplicas := some v }
      else s
  | .maxReplicas, some (.int v) =>
      if op.op = "replace" then { s with maxReplicas := v } else s
  | _, _ => s

/-- Apply a patch list to an HPA spec, left to right. -/
def HpaSpec.applyPatches (s : HpaSpec) (ops : List PatchOp) : HpaSpec :=
  ops.foldl HpaSpec.applyOp s

/-- Core of `handleMutateHPA` after successful decoding. -/
def handleMutateHpaCore (uid : String) (h : HpaObj) : AdmissionResponse :=
  if skipHpa h then skipResponse uid
  else mutateResponse uid (hpaPatches h.spec)

/-! ### Replica handler (`handleMutateReplicas`) -/

/-- A workload as decoded by `handleMutateReplicas`: annotations and
`spec.replicas *int32`. -/
structure Workload where
  ns : String
  name : String
  anns : Option (List (String × String))
  replicas : Option Int
deriving DecidableEq, Repr

/-- Skip decision of `handleMutateReplicas`. -/
def skipWorkload (w : Workload) : Bool :=
  annLookup w.anns skipKey = some "true"

/-- The patch list generated by `handleMutateReplicas` for a non-skipped
workload.  The handler does not inspect the object's kind (it only logs it):
the same logic runs for any kind routed to the endpoint. -/
def replicaPatches (replicas : Option Int) : List PatchOp :=
  match replicas with
  | none => [⟨"add", .replicas, some (.int 1)⟩]
  | some r => if r ≠ 1 then [⟨"replace", .replicas, some (.int 1)⟩] else []

/-- Core of `handleMutateReplicas` after successful decoding. -/
def handleMutateReplicasCore (uid : String) (w : Workload) : AdmissionResponse :=
  if skipWorkload w then skipResponse uid
  else mutateResponse uid (replicaPatches w.replicas)

/-- Modelled from the spec: the kinds routed to `/mutate-replicas` by the
webhook registration (Helm chart, absent from the provided sources).  Per the
spec and README, only Deployments are targeted; StatefulSets are excluded by
design because their ordinal replicas are not fungible. -/
def replicaTargetKinds : List String := ["Deployment"]

/-- Modelled from the spec: the admission pipeline for the replica endpoint.
`none` means the webhook is never invoked for this kind, so no patch is ever
produced for it. -/
def replicaAdmission (kind : String) (uid : String) (w : Workload) :
    Option AdmissionResponse :=
  if kind ∈ replicaTargetKinds then some (handleMutateReplicasCore uid w)
  else none

/-! ### Transport level

The HTTP shape of each handler: decode results are `Option`s (`none` is a
`json.Unmarshal` failure), the envelope's `Request` pointer is an `Option`
(`none` is a nil pointer — dereferencing it panics), and the two
`json.Marshal` calls are oracles that may fail, exactly the `(bytes, err)`
pairs the Go code inspects or ignores. -/

/-- `admissionReview.Request`: correlation id, kind and the decoded embedded
object (`none` when `json.Unmarshal` of `Object.Raw` fails). -/
structure RequestData (α : Type) where
  uid : String
  kind : String
  obj : Option α
deriving Repr

/-- A decoded `AdmissionReview` envelope; `request = none` models a nil
`Request` pointer. -/
structure Envelope (α : Type) where
  request : Option (RequestData α)
deriving Repr

/-- The transport-level outcome of one request. -/
inductive HttpResult where
  | clientError (msg : String)
  | serverError (msg : String)
  | ok (body : String)
  | panicked
deriving DecidableEq, Repr

/-- A `json.Marshal` oracle for a value of type `α`. -/
def Marshal (α : Type) : Type := α → Except String String

/-- Generic transport shape shared verbatim by the three handlers: envelope
decode failure → 400; nil `Request` pointer → panic on dereference; object
decode failure → 400; skip path → response marshalled with the error
discarded (`respBytes, _ := json.Marshal(response)`); mutation path →
patch marshal failure → 500, response marshal failure → 500, else 200. -/
def handlerHttp (skip : α → Bool) (gen : α → List PatchOp)
    (mp : Marshal (List PatchOp)) (mr : Marshal AdmissionResponse)
    (input : Option (Envelope α)) : HttpResult :=
  match input with
  | none => .clientError "failed to unmarshal admission review"
  | some env =>
      match env.request with
      | none => .panicked
      | some req =>
          match req.obj with
          | none => .clientError "failed to unmarshal object"
          | some a =>
              if skip a then
                match mr (skipResponse req.uid) with
                | .ok s => .ok s
                | .error _ => .ok ""
              else
                let ops := gen a
                match mp ops with
                | .error _ => .serverError "failed to marshal patches"
                | .ok _ =>
                    match mr (mutateResponse req.uid ops) with
                    | .error _ => .serverError "failed to marshal response"
                    | .ok s => .ok s

/-- `handleMutate` at the transport level. -/
def handleMutateHttp (mp : Marshal (List PatchOp)) (mr : Marshal AdmissionResponse)
    (input : Option (Envelope Pod)) : HttpResult :=
  handlerHttp skipPod podPatches mp mr input

/-- `handleMutateHPA` at the transport level. -/
def handleMutateHpaHttp (mp : Marshal (List PatchOp)) (mr : Marshal AdmissionResponse)
    (input : Option (Envelope HpaObj)) : HttpResult :=
  handlerHttp skipHpa (fun h => hpaPatches h.spec) mp mr input

/-- `handleMutateReplicas` at the transport level. -/
def handleMutateReplicasHttp (mp : Marshal (List PatchOp))
    (mr : Marshal AdmissionResponse) (input : Option (Envelope Workload)) :
    HttpResult :=
  handlerHttp skipWorkload (fun w => replicaPatches w.replicas) mp mr input

/-! ### The functional form of the applied pod mutation -/

/-- Requests after the generated replaces: each present entry scaled. -/
def ResourceList.scaled (rl : ResourceList) : ResourceList :=
  ⟨rl.cpu.map scaleCpu, rl.mem.map scaleMem⟩

/-- A container after its generated patches: requests scaled entrywise,
limit entries all removed (the `limits` object itself stays when present). -/
def Container.afterPatch (c : Container) : Container :=
  ⟨c.requests.map ResourceList.scaled, c.limits.map (fun _ => ⟨none, none⟩)⟩

/-- A pod after the full generated patch list. -/
def Pod.afterPatch (pod : Pod) : Pod :=
  { pod with
    anns :=
      if annLookup pod.anns evictKey = some "false" then
        pod.anns.map (List.filter (fun kv => kv.1 ≠ evictKey))
      else pod.anns,
    containers := pod.containers.map Container.afterPatch,
    initContainers := pod.initContainers.map Container.afterPatch }

/-! ### Lemmas about patch application -/

theorem modifyAt_append (f : α → α) (pre : List α) (x : α) (post : List α) :
    modifyAt f pre.length (pre ++ x :: post) = pre ++ f x :: post := by
  induction pre with
  | nil => rfl
  | cons a l ih => simp [modifyAt, ih]

/-- Applying the patches generated for one container rewrites exactly that
container to its functional image. -/
theorem applyPatches_containerPatches (pod : Pod) (pre post : List Container)
    (c : Container) (h : pod.containers = pre ++ c :: post) :
    Pod.applyPatches pod (containerPatches false pre.length c) =
      { pod with containers := pre ++ c.afterPatch :: post } := by
  obtain ⟨ns, name, anns, cont, init⟩ := pod
  simp only at h
  subst h
  obtain ⟨req, lim⟩ := c
  rcases req with _ | ⟨cpu, mem⟩ <;> rcases lim with _ | ⟨lcpu, lmem⟩ <;>
    [skip; rcases lcpu with _ | v <;> rcases lmem with _ | w;
     rcases cpu with _ | a <;> rcases mem with _ | b;
     rcases cpu with _ | a <;> rcases mem with _ | b <;>
       rcases lcpu with _ | v <;> rcases lmem with _ | w] <;>
    simp [containerPatches, Pod.applyPatches, Pod.applyOp, opOnContainer,
      Container.applyField, ResourceList.setEntry, Container.afterPatch,
      ResourceList.scaled, modifyAt_append]

/-- Same statement for an init container. -/
theorem applyPatches_containerPatches_init (pod : Pod) (pre post : List Container)
    (c : Container) (h : pod.initContainers = pre ++ c :: post) :
    Pod.applyPatches pod (containerPatches true pre.length c) =
      { pod with initContainers := pre ++ c.afterPatch :: post } := by
  obtain ⟨ns, name, anns, cont, init⟩ := pod
  simp only at h
  subst h
  obtain ⟨req, lim⟩ := c
  rcases req with _ | ⟨cpu, mem⟩ <;> rcases lim with _ | ⟨lcpu, lmem⟩ <;>
    [skip; rcases lcpu with _ | v <;> rcases lmem with _ | w;
     rcases cpu with _ | a <;> rcases mem with _ | b;
     rcases cpu with _ | a <;> rcases mem with _ | b <;>
       rcases lcpu with _ | v <;> rcases lmem with _ | w] <;>
    simp [containerPatches, Pod.applyPatches, Pod.applyOp, opOnContainer,
      Container.applyField, ResourceList.setEntry, Container.afterPatch,
      ResourceList.scaled, modifyAt_append]

theorem applyPatches_append (pod : Pod) (xs ys : List PatchOp) :
    Pod.applyPatches pod (xs ++ ys) =
      Pod.applyPatches (Pod.applyPatches pod xs) ys :=
  List.foldl_append ..

/-- Applying the patches of a whole container list maps every container to
its functional image. -/
theorem applyPatches_containersPatches (l : List Container) :
    ∀ (pre : List Container) (pod : Pod), pod.containers = pre ++ l →
    Pod.applyPatches pod (containersPatches false pre.length l) =
      { pod with containers := pre ++ l.map Container.afterPatch } := by
  induction l with
  | nil =>
      intro pre pod h
      simp [containersPatches, Pod.applyPatches, ← h]
  | cons c cs ih =>
      intro pre pod h
      rw [containersPatches, applyPatches_append,
        applyPatches_containerPatches pod pre cs c h]
      have h2 := ih (pre ++ [c.afterPatch])
        { pod with containers := pre ++ c.afterPatch :: cs }
        (by simp)
      simp only [List.length_append, List.length_singleton] at h2
      rw [h2]
      simp

/-- Same statement for the init-container list. -/
theorem applyPatches_containersPatches_init (l : List Container) :
    ∀ (pre : List Container) (pod : Pod), pod.initContainers = pre ++ l →
    Pod.applyPatches pod (containersPatches true pre.length l) =
      { pod with initContainers := pre ++ l.map Container.afterPatch } := by
  induction l with
  | nil =>
      intro pre pod h
      simp [containersPatches, Pod.applyPatches, ← h]
  | cons c cs ih =>
      intro pre pod h
      rw [containersPatches, applyPatches_append,
        applyPatches_containerPatches_init pod pre cs c h]
      have h2 := ih (pre ++ [c.afterPatch])
        { pod with initContainers := pre ++ c.afterPatch :: cs }
        (by simp)
      simp only [List.length_append, List.length_singleton] at h2
      rw [h2]
      simp

/-- Applying the eviction-guard patch rewrites the annotation map as in
`Pod.afterPatch` and touches nothing else. -/
theorem applyPatches_evictPatch (pod : Pod) :
    Pod.applyPatches pod (evictPatch pod) =
      { pod with anns :=
          if annLookup pod.anns evictKey = some "false" then
            pod.anns.map (List.filter (fun kv => kv.1 ≠ evictKey))
          else pod.anns } := by
  obtain ⟨ns, name, anns, cont, init⟩ := pod
  rcases anns with _ | m
  · simp [evictPatch, annLookup, Pod.applyPatches]
  · by_cases hl : List.lookup evictKey m = some "false"
    · simp [evictPatch, annLookup, hl, Pod.applyPatches, Pod.applyOp]
    · simp [evictPatch, annLookup, hl, Pod.applyPatches]

/-- Version of `applyPatches_containersPatches` starting at index 0. -/
theorem applyPatches_containersPatches0 (l : List Container) (pod : Pod)
    (h : pod.containers = l) :
    Pod.applyPatches pod (containersPatches false 0 l) =
      { pod with containers := l.map Container.afterPatch } := by
  have h0 := applyPatches_containersPatches l [] pod (by simpa using h)
  simpa using h0

/-- Version of `applyPatches_containersPatches_init` starting at index 0. -/
theorem applyPatches_containersPatches_init0 (l : List Container) (pod : Pod)
    (h : pod.initContainers = l) :
    Pod.applyPatches pod (containersPatches true 0 l) =
      { pod with initContainers := l.map Container.afterPatch } := by
  have h0 := applyPatches_containersPatches_init l [] pod (by simpa using h)
  simpa using h0

theorem scaleCpu_eq_max (v : Int) : scaleCpu v = max (Int.tdiv v 5) 1 := by
  simp only [scaleCpu, max_def]
  split <;> split <;> omega

theorem scaleMem_eq_max (v : Int) :
    scaleMem v = max (Int.tdiv v 5) (1024 * 1024) := by
  simp only [scaleMem, max_def]
  split <;> split <;> omega

/-- Membership transfer: a patch generated for the container at position `j`
of the list is in the list's patch set (indices offset by `k`). -/
theorem mem_containersPatches_of_get (isInit : Bool) (l : List Container) :
    ∀ (k j : Nat) (c : Container), l[j]? = some c →
      ∀ op ∈ containerPatches isInit (k + j) c,
        op ∈ containersPatches isInit k l := by
  induction l with
  | nil => intro k j c h; simp at h
  | cons d ds ih =>
      intro k j c h op hop
      cases j with
      | zero =>
          simp at h
          subst h
          rw [Nat.add_zero] at hop
          exact List.mem_append_left _ hop
      | succ j =>
          simp at h
          have hop2 : op ∈ containerPatches isInit ((k + 1) + j) c := by
            have he : k + (j + 1) = (k + 1) + j := by omega
            rwa [he] at hop
          exact List.mem_append_right _ (ih (k + 1) j c h op hop2)

/-- Inverse direction: every generated patch comes from some container. -/
theorem exists_of_mem_containersPatches (isInit : Bool) (l : List Container) :
    ∀ (k : Nat) (op : PatchOp), op ∈ containersPatches isInit k l →
      ∃ j c, l[j]? = some c ∧ op ∈ containerPatches isInit (k + j) c := by
  induction l with
  | nil => intro k op h; simp [containersPatches] at h
  | cons d ds ih =>
      intro k op h
      rw [containersPatches] at h
      rcases List.mem_append.mp h with h1 | h1
      · exact ⟨0, d, by simp, by rwa [Nat.add_zero]⟩
      · obtain ⟨j, c, hg, hm⟩ := ih (k + 1) op h1
        refine ⟨j + 1, c, by simpa using hg, ?_⟩
        have he : k + (j + 1) = (k + 1) + j := by omega
        rwa [he]

/-- Every patch generated for one container carries that container's index
in its path. -/
theorem path_of_mem_containerPatches (isInit : Bool) (i : Nat) (c : Container)
    (op : PatchOp) (h : op ∈ containerPatches isInit i c) :
    ∃ isLimit isMem, op.path = .containerRes isInit isLimit isMem i := by
  obtain ⟨req, lim⟩ := c
  rcases req with _ | ⟨cpu, mem⟩ <;> rcases lim with _ | ⟨lc, lm⟩ <;>
    [skip;
     rcases lc with _ | v <;> rcases lm with _ | w;
     rcases cpu with _ | a <;> rcases mem with _ | b;
     rcases cpu with _ | a <;> rcases mem with _ | b <;>
       rcases lc with _ | v <;> rcases lm with _ | w] <;>
    simp [containerPatches] at h <;>
    (first
      | (rcases h with rfl | rfl | rfl | rfl)
      | (rcases h with rfl | rfl | rfl)
      | (rcases h with rfl | rfl)
      | (rcases h with rfl)) <;>
    exact ⟨_, _, rfl⟩

/-- A generated patch on a limits path certifies that the corresponding limit
entry is present in the input container. -/
theorem limit_present_of_mem_containerPatches (isInit isMem : Bool) (i : Nat)
    (c : Container) (op : PatchOp) (h : op ∈ containerPatches isInit i c)
    (hp : op.path = .containerRes isInit true isMem i) :
    ∃ lim, c.limits = some lim ∧
      (if isMem then lim.mem else lim.cpu) ≠ none := by
  obtain ⟨req, lim⟩ := c
  cases isMem <;>
    (rcases req with _ | ⟨cpu, mem⟩ <;> rcases lim with _ | ⟨lc, lm⟩ <;>
      [skip;
       rcases lc with _ | v <;> rcases lm with _ | w;
       rcases cpu with _ | a <;> rcases mem with _ | b;
       rcases cpu with _ | a <;> rcases mem with _ | b <;>
         rcases lc with _ | v <;> rcases lm with _ | w] <;>
      simp [containerPatches] at h <;>
      (first
        | (rcases h with rfl | rfl | rfl | rfl)
        | (rcases h with rfl | rfl | rfl)
        | (rcases h with rfl | rfl)
        | (rcases h with rfl)) <;>
      simp_all)

/-- No CPU or memory limit entry on this container. -/
def Container.limitFree (c : Container) : Bool :=
  match c.limits with
  | none => true
  | some l => l.cpu.isNone && l.mem.isNone

/-- No CPU or memory limit entry on any container or init container. -/
def Pod.limitFree (pod : Pod) : Bool :=
  pod.containers.all Container.limitFree &&
  pod.initContainers.all Container.limitFree

/-- No CPU or memory request entry on this container. -/
def Container.requestFree (c : Container) : Bool :=
  match c.requests with
  | none => true
  | some r => r.cpu.isNone && r.mem.isNone

/-- No CPU or memory request entry on any container or init container. -/
def Pod.requestFree (pod : Pod) : Bool :=
  pod.containers.all Container.requestFree &&
  pod.initContainers.all Container.requestFree

theorem limitFree_afterPatch_container (c : Container) :
    (Container.afterPatch c).limitFree = true := by
  obtain ⟨req, lim⟩ := c
  cases lim <;> simp [Container.afterPatch, Container.limitFree]

theorem lookup_filter_ne (k : String) (m : List (String × String)) :
    List.lookup k (List.filter (fun kv => kv.1 ≠ k) m) = none := by
  induction m with
  | nil => rfl
  | cons a t ih =>
      rw [List.filter_cons]
      by_cases hk : a.1 = k
      · rw [if_neg (by simp [hk])]
        exact ih
      · have h1 : decide (a.1 ≠ k) = true := by simp [hk]
        have h2 : (k == a.1) = false := by
          simp only [beq_eq_false_iff_ne]
          exact fun he => hk he.symm
        simp only [h1, if_true, List.lookup, h2, ih]

/-- Every op of an eviction-guard patch targets the annotation path. -/
theorem evictPatch_path (pod : Pod) (op : PatchOp) (h : op ∈ evictPatch pod) :
    op.path = .safeToEvict := by
  rcases hp : pod.anns with _ | m <;> rw [evictPatch, hp] at h
  · simp at h
  · by_cases hl : List.lookup evictKey m = some "false" <;> simp [hl] at h
    subst h
    rfl

/-- The generated patch list applied to the pod is exactly `Pod.afterPatch`. -/
theorem applyPatches_podPatches (pod : Pod) :
    Pod.applyPatches pod (podPatches pod) = pod.afterPatch := by
  obtain ⟨ns, name, anns, cont, init⟩ := pod
  rw [podPatches, applyPatches_append, applyPatches_append,
    applyPatches_evictPatch]
  rw [applyPatches_containersPatches0 cont _ rfl]
  rw [applyPatches_containersPatches_init0 init _ rfl]
  simp [Pod.afterPatch]

theorem limitFree_afterPatch (pod : Pod) : pod.afterPatch.limitFree = true := by
  obtain ⟨ns, name, anns, cont, init⟩ := pod
  simp only [Pod.limitFree, Pod.afterPatch, Bool.and_eq_true, List.all_eq_true]
  refine ⟨fun c hc => ?_, fun c hc => ?_⟩ <;>
    (obtain ⟨a, _, rfl⟩ := List.mem_map.mp hc;
     exact limitFree_afterPatch_container a)

/-- A request-free container generates no patches after mutation. -/
theorem containerPatches_afterPatch_eq_nil (isInit : Bool) (k : Nat)
    (c : Container) (h : c.requestFree = true) :
    containerPatches isInit k (Container.afterPatch c) = [] := by
  obtain ⟨req, lim⟩ := c
  rcases req with _ | ⟨cpu, mem⟩ <;> rcases lim with _ | ⟨lc, lm⟩ <;>
    simp_all [Container.requestFree, containerPatches, Container.afterPatch,
      ResourceList.scaled, Option.isNone_iff_eq_none]

theorem containersPatches_afterPatch_eq_nil (isInit : Bool)
    (l : List Container) :
    ∀ (k : Nat), (∀ c ∈ l, c.requestFree = true) →
      containersPatches isInit k (l.map Container.afterPatch) = [] := by
  induction l with
  | nil => intro k _; rfl
  | cons d ds ih =>
      intro k h
      rw [List.map_cons, containersPatches,
        containerPatches_afterPatch_eq_nil isInit k d (h d (by simp)),
        ih (k + 1) (fun c hc => h c (by simp [hc]))]
      rfl

/-- After applying the generated patches, the eviction-guard patch is no
longer generated. -/
theorem evictPatch_afterPatch (pod : Pod) : evictPatch pod.afterPatch = [] := by
  obtain ⟨ns, name, anns, cont, init⟩ := pod
  rcases anns with _ | m
  · simp [Pod.afterPatch, evictPatch, annLookup]
  · by_cases hl : List.lookup evictKey m = some "false"
    · have h := lookup_filter_ne evictKey m
      simp only [ne_eq, decide_not] at h
      simp [Pod.afterPatch, evictPatch, annLookup, hl, h]
    · simp [Pod.afterPatch, evictPatch, annLookup, hl]

/-- Regenerating on the patched pod yields nothing as soon as the pod had no
resource requests. -/
theorem podPatches_afterPatch_eq_nil (pod : Pod)
    (h : pod.requestFree = true) :
    podPatches pod.afterPatch = [] := by
  obtain ⟨hc, hi⟩ := Bool.and_eq_true _ _ |>.mp h
  rw [podPatches, evictPatch_afterPatch]
  have h1 : pod.afterPatch.containers = pod.containers.map Container.afterPatch := rfl
  have h2 : pod.afterPatch.initContainers = pod.initContainers.map Container.afterPatch := rfl
  rw [h1, h2,
    containersPatches_afterPatch_eq_nil false pod.containers 0
      (fun c hcm => List.all_eq_true.mp hc c hcm),
    containersPatches_afterPatch_eq_nil true pod.initContainers 0
      (fun c hcm => List.all_eq_true.mp hi c hcm)]
  rfl

/-- Lift a patch of one container into the pod's patch list. -/
theorem mem_podPatches_of_container (pod : Pod) (isInit : Bool) (i : Nat)
    (c : Container)
    (hc : (if isInit then pod.initContainers else pod.containers)[i]? = some c)
    (op : PatchOp) (hop : op ∈ containerPatches isInit i c) :
    op ∈ podPatches pod := by
  rw [podPatches]
  cases isInit
  · have hm := mem_containersPatches_of_get false pod.containers 0 i c
      (by simpa using hc) op (by simpa using hop)
    exact List.mem_append_left _ (List.mem_append_right _ hm)
  · have hm := mem_containersPatches_of_get true pod.initContainers 0 i c
      (by simpa using hc) op (by simpa using hop)
    exact List.mem_append_right _ hm

/-! ### Claim theorems -/

/-- C1: For every pod outside the excluded namespace and without the skip
annotation, and for every container and init-container with a CPU request of
`V` milli-units, the pod patch generator emits a replace operation whose
value is `max(floor(V*r), cpu_min)` milli-units (r = 1/5, cpu_min = 1m), and
for a memory request of `B` bytes a replace with value
`max(floor(B*r), mem_min)` bytes (mem_min = 1 MiB); CPU scaled by truncating
integer division in milli-units, memory by truncating integer division in
bytes, each clamped upward to its floor. -/
theorem C1_requests_scaled (uid : String) (pod : Pod)
    (hns : pod.ns ∉ excludedNamespaces) (hskip : skipPod pod = false)
    (isInit : Bool) (i : Nat) (c : Container) (req : ResourceList)
    (hc : (if isInit then pod.initContainers else pod.containers)[i]? = some c)
    (hreq : c.requests = some req) :
    (∀ v : Int, req.cpu = some v →
       (⟨"replace", .containerRes isInit false false i,
         some (.cpuMilli (max (Int.tdiv v 5) 1))⟩ : PatchOp)
         ∈ (podAdmission uid pod).patchOps) ∧
    (∀ b : Int, req.mem = some b →
       (⟨"replace", .containerRes isInit false true i,
         some (.memBytes (max (Int.tdiv b 5) (1024 * 1024)))⟩ : PatchOp)
         ∈ (podAdmission uid pod).patchOps) := by
  have hops : (podAdmission uid pod).patchOps = podPatches pod := by
    simp [podAdmission, hns, handleMutateCore, hskip, mutateResponse,
      skipResponse, AdmissionResponse.patchOps]
  rw [hops]
  constructor
  · intro v hv
    refine mem_podPatches_of_container pod isInit i c hc _ ?_
    rw [← scaleCpu_eq_max]
    simp [containerPatches, hreq, hv]
  · intro b hb
    refine mem_podPatches_of_container pod isInit i c hc _ ?_
    rw [← scaleMem_eq_max]
    simp [containerPatches, hreq, hb]

/-- A concrete pod exercising all of the claims' hypotheses: one container
with requests cpu 100m / memory 200Mi and limits cpu 500m / memory 10^6, one
init container with a 2m cpu request, and a `safe-to-evict: "false"`
annotation. -/
def podW : Pod :=
  ⟨"default", "app",
   some [("cluster-autoscaler.kubernetes.io/safe-to-evict", "false")],
   [⟨some ⟨some 100, some 209715200⟩, some ⟨some 500, some 1000000⟩⟩],
   [⟨some ⟨some 2, none⟩, none⟩]⟩

/-- Witness for C1: 100m a container cpu request scales to 20m, a 2m init
container cpu request clamps to the 1m floor, memory scales to 40 MiB. -/
theorem C1_requests_scaled_witness :
    (⟨"replace", .containerRes false false false 0,
      some (.cpuMilli (max (Int.tdiv 100 5) 1))⟩ : PatchOp)
      ∈ (podAdmission "u1" podW).patchOps ∧
    (⟨"replace", .containerRes false false true 0,
      some (.memBytes (max (Int.tdiv 209715200 5) (1024 * 1024)))⟩ : PatchOp)
      ∈ (podAdmission "u1" podW).patchOps ∧
    (⟨"replace", .containerRes true false false 0,
      some (.cpuMilli (max (Int.tdiv 2 5) 1))⟩ : PatchOp)
      ∈ (podAdmission "u1" podW).patchOps :=
  ⟨(C1_requests_scaled "u1" podW (by decide) (by decide) false 0
      ⟨some ⟨some 100, some 209715200⟩, some ⟨some 500, some 1000000⟩⟩
      ⟨some 100, some 209715200⟩ rfl rfl).1 100 rfl,
   (C1_requests_scaled "u1" podW (by decide) (by decide) false 0
      ⟨some ⟨some 100, some 209715200⟩, some ⟨some 500, some 1000000⟩⟩
      ⟨some 100, some 209715200⟩ rfl rfl).2 209715200 rfl,
   (C1_requests_scaled "u1" podW (by decide) (by decide) true 0
      ⟨some ⟨some 2, none⟩, none⟩ ⟨some 2, none⟩ rfl rfl).1 2 rfl⟩

/-- C2: For every pod outside the excluded namespace and without the skip
annotation, every CPU or memory limit present on any container or
init-container yields a remove operation (unconditionally, regardless of its
value); applying the generated patch set to the input yields an object with
no CPU/memory limit entries under any container; and limits fields absent in
the input are never touched (every limits-path operation certifies a present
entry). -/
theorem C2_limits_removed (uid : String) (pod : Pod)
    (hns : pod.ns ∉ excludedNamespaces) (hskip : skipPod pod = false) :
    (∀ (isInit : Bool) (i : Nat) (c : Container) (lim : ResourceList),
       (if isInit then pod.initContainers else pod.containers)[i]? = some c →
       c.limits = some lim →
       (∀ v : Int, lim.cpu = some v →
          (⟨"remove", .containerRes isInit true false i, none⟩ : PatchOp)
            ∈ (podAdmission uid pod).patchOps) ∧
       (∀ b : Int, lim.mem = some b →
          (⟨"remove", .containerRes isInit true true i, none⟩ : PatchOp)
            ∈ (podAdmission uid pod).patchOps)) ∧
    Pod.limitFree (Pod.applyPatches pod (podAdmission uid pod).patchOps) = true ∧
    (∀ op ∈ (podAdmission uid pod).patchOps, ∀ (isInit isMem : Bool) (i : Nat),
       op.path = .containerRes isInit true isMem i →
       ∃ (c : Container) (lim : ResourceList),
         (if isInit then pod.initContainers else pod.containers)[i]? = some c ∧
         c.limits = some lim ∧ (if isMem then lim.mem else lim.cpu) ≠ none) := by
  have hops : (podAdmission uid pod).patchOps = podPatches pod := by
    simp [podAdmission, hns, handleMutateCore, hskip, mutateResponse,
      skipResponse, AdmissionResponse.patchOps]
  rw [hops]
  refine ⟨?_, ?_, ?_⟩
  · intro isInit i c lim hc hlim
    constructor
    · intro v hv
      refine mem_podPatches_of_container pod isInit i c hc _ ?_
      simp [containerPatches, hlim, hv]
    · intro b hb
      refine mem_podPatches_of_container pod isInit i c hc _ ?_
      simp [containerPatches, hlim, hb]
  · rw [applyPatches_podPatches]
    exact limitFree_afterPatch pod
  · intro op hop isInit isMem i hpath
    rw [podPatches] at hop
    rcases List.mem_append.mp hop with h1 | h1
    · rcases List.mem_append.mp h1 with h2 | h2
      · rw [evictPatch_path pod op h2] at hpath
        cases hpath
      · obtain ⟨j, c, hg, hm⟩ :=
          exists_of_mem_containersPatches false pod.containers 0 op h2
        rw [Nat.zero_add] at hm
        obtain ⟨b1, b2, hp2⟩ := path_of_mem_containerPatches false j c op hm
        rw [hpath] at hp2
        obtain ⟨hinit, hlim, hmem, hij⟩ :
            isInit = false ∧ true = b1 ∧ isMem = b2 ∧ i = j := by
          simpa [PatchPath.containerRes.injEq] using hp2
        subst hinit hij
        obtain ⟨lim, hl, hne⟩ :=
          limit_present_of_mem_containerPatches false isMem i c op hm
            (by rw [hpath])
        exact ⟨c, lim, by simpa using hg, hl, hne⟩
    · obtain ⟨j, c, hg, hm⟩ :=
        exists_of_mem_containersPatches true pod.initContainers 0 op h1
      rw [Nat.zero_add] at hm
      obtain ⟨b1, b2, hp2⟩ := path_of_mem_containerPatches true j c op hm
      rw [hpath] at hp2
      obtain ⟨hinit, hlim, hmem, hij⟩ :
          isInit = true ∧ true = b1 ∧ isMem = b2 ∧ i = j := by
        simpa [PatchPath.containerRes.injEq] using hp2
      subst hinit hij
      obtain ⟨lim, hl, hne⟩ :=
        limit_present_of_mem_containerPatches true isMem i c op hm
          (by rw [hpath])
      exact ⟨c, lim, by simpa using hg, hl, hne⟩

/-- Witness for C2: on the concrete pod, both limit entries of the container
yield remove operations, the applied result has no limit entries, and a
limits-path operation certifies a present entry. -/
theorem C2_limits_removed_witness :
    (⟨"remove", .containerRes false true false 0, none⟩ : PatchOp)
      ∈ (podAdmission "u2" podW).patchOps ∧
    (⟨"remove", .containerRes false true true 0, none⟩ : PatchOp)
      ∈ (podAdmission "u2" podW).patchOps ∧
    Pod.limitFree (Pod.applyPatches podW (podAdmission "u2" podW).patchOps)
      = true :=
  ⟨((C2_limits_removed "u2" podW (by decide) (by decide)).1 false 0
      ⟨some ⟨some 100, some 209715200⟩, some ⟨some 500, some 1000000⟩⟩
      ⟨some 500, some 1000000⟩ rfl rfl).1 500 rfl,
   ((C2_limits_removed "u2" podW (by decide) (by decide)).1 false 0
      ⟨some ⟨some 100, some 209715200⟩, some ⟨some 500, some 1000000⟩⟩
      ⟨some 500, some 1000000⟩ rfl rfl).2 1000000 rfl,
   (C2_limits_removed "u2" podW (by decide) (by decide)).2.1⟩

/-- A pod whose single container requests exactly 1m of CPU: the generator's
fixed point for that field. -/
def podFix : Pod := ⟨"default", "app", none, [⟨some ⟨some 1, none⟩, none⟩], []⟩

/-- C3 (counterexample): the pod generator is not idempotent.  On a pod whose
container requests 1m CPU, the generator emits a replace to 1m — a no-op for
a field already at its target — and regenerating after applying the patch
yields the same non-empty list again. -/
theorem C3_idempotent_counterexample :
    podPatches (Pod.applyPatches podFix (podPatches podFix)) ≠ [] ∧
    (⟨"replace", .containerRes false false false 0, some (.cpuMilli 1)⟩ :
        PatchOp) ∈ podPatches podFix ∧
    (podFix.containers.map (fun c => c.requests.map ResourceList.cpu))
      = [some (some 1)] := by
  decide

/-- A container that is not request-free has a present request entry. -/
theorem exists_entry_of_not_requestFree (c : Container)
    (h : ¬ c.requestFree = true) :
    ∃ req, c.requests = some req ∧ (req.cpu ≠ none ∨ req.mem ≠ none) := by
  obtain ⟨req, lim⟩ := c
  rcases req with _ | ⟨cpu, mem⟩
  · simp [Container.requestFree] at h
  · refine ⟨⟨cpu, mem⟩, rfl, ?_⟩
    rcases cpu with _ | v
    · rcases mem with _ | b
      · simp [Container.requestFree] at h
      · right
        simp
    · left
      simp

/-- A pod that is not request-free has a container or init container with a
present request entry, at a known index. -/
theorem exists_request_of_not_requestFree (pod : Pod)
    (h : pod.requestFree = false) :
    ∃ (isInit : Bool) (i : Nat) (c : Container) (req : ResourceList),
      (if isInit then pod.initContainers else pod.containers)[i]? = some c ∧
      c.requests = some req ∧ (req.cpu ≠ none ∨ req.mem ≠ none) := by
  rw [Pod.requestFree] at h
  rcases Bool.and_eq_false_iff.mp h with h1 | h1
  · obtain ⟨c, hc, hf⟩ := List.all_eq_false.mp h1
    obtain ⟨i, hi⟩ := List.getElem?_of_mem hc
    obtain ⟨req, hreq, hent⟩ := exists_entry_of_not_requestFree c hf
    exact ⟨false, i, c, req, by simpa using hi, hreq, hent⟩
  · obtain ⟨c, hc, hf⟩ := List.all_eq_false.mp h1
    obtain ⟨i, hi⟩ := List.getElem?_of_mem hc
    obtain ⟨req, hreq, hent⟩ := exists_entry_of_not_requestFree c hf
    exact ⟨true, i, c, req, by simpa using hi, hreq, hent⟩

/-- A present request entry survives scaling, so the patched pod of a
non-request-free pod regenerates a non-empty patch list. -/
theorem podPatches_afterPatch_ne_nil (pod : Pod)
    (h : pod.requestFree = false) :
    podPatches pod.afterPatch ≠ [] := by
  obtain ⟨isInit, i, c, req, hc, hreq, hent⟩ :=
    exists_request_of_not_requestFree pod h
  have hc2 : (if isInit then pod.afterPatch.initContainers
      else pod.afterPatch.containers)[i]? = some (Container.afterPatch c) := by
    cases isInit <;> simp_all [Pod.afterPatch, List.getElem?_map]
  rcases hent with hcpu | hmem
  · obtain ⟨v, hv⟩ := Option.ne_none_iff_exists'.mp hcpu
    have hop : (⟨"replace", .containerRes isInit false false i,
        some (.cpuMilli (scaleCpu (scaleCpu v)))⟩ : PatchOp)
        ∈ containerPatches isInit i (Container.afterPatch c) := by
      simp [containerPatches, Container.afterPatch, hreq,
        ResourceList.scaled, hv]
    exact List.ne_nil_of_mem
      (mem_podPatches_of_container pod.afterPatch isInit i _ hc2 _ hop)
  · obtain ⟨b, hb⟩ := Option.ne_none_iff_exists'.mp hmem
    have hop : (⟨"replace", .containerRes isInit false true i,
        some (.memBytes (scaleMem (scaleMem b)))⟩ : PatchOp)
        ∈ containerPatches isInit i (Container.afterPatch c) := by
      rcases hcpu2 : req.cpu with _ | v2 <;>
        simp [containerPatches, Container.afterPatch, hreq,
          ResourceList.scaled, hb, hcpu2]
    exact List.ne_nil_of_mem
      (mem_podPatches_of_container pod.afterPatch isInit i _ hc2 _ hop)

/-- C3 (amended): the pod generator re-emits a replace for every present CPU
or memory request, including no-ops, so idempotence holds exactly for pods
with no CPU/memory request entries on any container or init container: for
those, applying the generated patch list and regenerating yields the empty
list (limit removal and annotation removal are idempotent), and for any pod
with a present request entry, regeneration after application is non-empty. -/
theorem C3_idempotent_amended (pod : Pod) :
    podPatches (Pod.applyPatches pod (podPatches pod)) = [] ↔
      pod.requestFree = true := by
  rw [applyPatches_podPatches]
  constructor
  · intro he
    by_contra hf
    have hff : pod.requestFree = false := by simpa using hf
    exact podPatches_afterPatch_ne_nil pod hff he
  · exact podPatches_afterPatch_eq_nil pod

/-- A request-free pod that still has limits and the eviction-guard
annotation, so its first patch list is non-trivial. -/
def podNR : Pod :=
  ⟨"default", "app",
   some [("cluster-autoscaler.kubernetes.io/safe-to-evict", "false")],
   [⟨none, some ⟨some 500, some 1000000⟩⟩], [⟨some ⟨none, none⟩, none⟩]⟩

/-- Witness for the amended C3: a request-free pod with a non-empty first
patch list regenerates nothing, and the fixed-point pod of the
counterexample, not being request-free, regenerates a non-empty list. -/
theorem C3_idempotent_amended_witness :
    Pod.requestFree podNR = true ∧
    podPatches podNR ≠ [] ∧
    podPatches (Pod.applyPatches podNR (podPatches podNR)) = [] ∧
    podPatches (Pod.applyPatches podFix (podPatches podFix)) ≠ [] :=
  ⟨by decide, by decide, (C3_idempotent_amended podNR).mpr (by decide),
   fun he => by
     have hf := (C3_idempotent_amended podFix).mp he
     exact absurd hf (by decide)⟩

/-- C4: For every pod whose namespace is in the configured excluded
namespace list (default: `kube-system`), the admission pipeline bypasses all
mutation and returns an allow-unchanged response; the check precedes the
skip-annotation check — no assumption on the pod's annotations is needed.
(The namespace gate is modelled from the spec: it lives in the webhook
registration manifests, outside the provided source files.) -/
theorem C4_namespace_excluded (uid : String) (pod : Pod)
    (h : pod.ns ∈ excludedNamespaces) :
    podAdmission uid pod = skipResponse uid ∧
    (podAdmission uid pod).allowed = true ∧
    (podAdmission uid pod).patchOps = [] := by
  simp [podAdmission, h, skipResponse, AdmissionResponse.patchOps]

/-- A pod in the system namespace carrying mutation-worthy content and a
non-"true" skip value. -/
def podSys : Pod :=
  ⟨"kube-system", "core",
   some [("resource-remover.nais.io/skip", "banana")],
   [⟨some ⟨some 100, none⟩, some ⟨some 500, none⟩⟩], []⟩

/-- Witness for C4 at a concrete `kube-system` pod. -/
theorem C4_namespace_excluded_witness :
    podAdmission "u4" podSys = skipResponse "u4" ∧
    (podAdmission "u4" podSys).patchOps = [] :=
  ⟨(C4_namespace_excluded "u4" podSys (by decide)).1,
   (C4_namespace_excluded "u4" podSys (by decide)).2.2⟩

/-- C5: For every target object, the skip decision is true iff the
annotation map contains `resource-remover.nais.io/skip` with value exactly
`"true"` (any other value is false; an absent map behaves as an absent key),
and every skipped object yields an allowed response carrying zero patch
operations. -/
theorem C5_skip_law :
    (∀ pod : Pod, skipPod pod = true ↔
       ∃ m, pod.anns = some m ∧ List.lookup skipKey m = some "true") ∧
    (∀ h : HpaObj, skipHpa h = true ↔
       ∃ m, h.anns = some m ∧ List.lookup skipKey m = some "true") ∧
    (∀ w : Workload, skipWorkload w = true ↔
       ∃ m, w.anns = some m ∧ List.lookup skipKey m = some "true") ∧
    (∀ (uid : String) (pod : Pod), skipPod pod = true →
       handleMutateCore uid pod = skipResponse uid ∧
       (handleMutateCore uid pod).patchOps.length = 0 ∧
       (handleMutateCore uid pod).allowed = true) ∧
    (∀ (uid : String) (h : HpaObj), skipHpa h = true →
       handleMutateHpaCore uid h = skipResponse uid ∧
       (handleMutateHpaCore uid h).patchOps.length = 0 ∧
       (handleMutateHpaCore uid h).allowed = true) ∧
    (∀ (uid : String) (w : Workload), skipWorkload w = true →
       handleMutateReplicasCore uid w = skipResponse uid ∧
       (handleMutateReplicasCore uid w).patchOps.length = 0 ∧
       (handleMutateReplicasCore uid w).allowed = true) := by
  refine ⟨?_, ?_, ?_, ?_, ?_, ?_⟩
  · intro pod
    rcases hp : pod.anns with _ | m <;> simp [skipPod, hp]
  · intro h
    rcases hp : h.anns with _ | m <;> simp [skipHpa, annLookup, hp]
  · intro w
    rcases hp : w.anns with _ | m <;> simp [skipWorkload, annLookup, hp]
  · intro uid pod hs
    simp [handleMutateCore, hs, skipResponse, AdmissionResponse.patchOps]
  · intro uid h hs
    simp [handleMutateHpaCore, hs, skipResponse, AdmissionResponse.patchOps]
  · intro uid w hs
    simp [handleMutateReplicasCore, hs, skipResponse, AdmissionResponse.patchOps]

/-- A pod carrying the skip annotation with value `"true"`. -/
def podSkip : Pod :=
  ⟨"default", "app", some [("resource-remover.nais.io/skip", "true")],
   [⟨some ⟨some 100, none⟩, some ⟨some 500, none⟩⟩], []⟩

/-- A skipped HPA and a skipped workload. -/
def hpaSkip : HpaObj :=
  ⟨"default", "h", some [("resource-remover.nais.io/skip", "true")], ⟨some 5, 10⟩⟩

def wSkip : Workload :=
  ⟨"default", "d", some [("resource-remover.nais.io/skip", "true")], some 3⟩

/-- Witness for C5 on concrete skipped objects of all three kinds. -/
theorem C5_skip_law_witness :
    handleMutateCore "u5" podSkip = skipResponse "u5" ∧
    (handleMutateHpaCore "u5" hpaSkip).patchOps.length = 0 ∧
    (handleMutateReplicasCore "u5" wSkip).allowed = true :=
  ⟨(C5_skip_law.2.2.2.1 "u5" podSkip (by decide)).1,
   (C5_skip_law.2.2.2.2.1 "u5" hpaSkip (by decide)).2.1,
   (C5_skip_law.2.2.2.2.2 "u5" wSkip (by decide)).2.2⟩

/-- Applying the generated HPA patches pins the spec at `⟨some 1, 1⟩`. -/
theorem hpaApply_eq (mn : Option Int) (mx : Int) :
    HpaSpec.applyPatches ⟨mn, mx⟩ (hpaPatches ⟨mn, mx⟩) = ⟨some 1, 1⟩ := by
  rcases mn with _ | m
  · by_cases hx : mx = 1 <;>
      simp [hpaPatches, hx, HpaSpec.applyPatches, HpaSpec.applyOp]
  · by_cases hm : m = 1 <;> by_cases hx : mx = 1 <;>
      simp [hpaPatches, hm, hx, HpaSpec.applyPatches, HpaSpec.applyOp]

/-- C6: For every non-skipped HPA, the generator emits an add of
minReplicas=1 when minReplicas is absent, a replace when present and ≠ 1, a
replace of maxReplicas only when it differs from 1, and no operation for a
field already at target; after application minReplicas = 1 and
maxReplicas = 1, and regeneration yields the empty list. -/
theorem C6_hpa (uid : String) (h : HpaObj) (hskip : skipHpa h = false) :
    (handleMutateHpaCore uid h).patchOps = hpaPatches h.spec ∧
    (h.spec.minReplicas = none →
       (⟨"add", .minReplicas, some (.int 1)⟩ : PatchOp) ∈ hpaPatches h.spec) ∧
    (∀ m : Int, h.spec.minReplicas = some m → m ≠ 1 →
       (⟨"replace", .minReplicas, some (.int 1)⟩ : PatchOp) ∈ hpaPatches h.spec) ∧
    (h.spec.minReplicas = some 1 →
       ∀ op ∈ hpaPatches h.spec, op.path ≠ .minReplicas) ∧
    (h.spec.maxReplicas ≠ 1 →
       (⟨"replace", .maxReplicas, some (.int 1)⟩ : PatchOp) ∈ hpaPatches h.spec) ∧
    (h.spec.maxReplicas = 1 →
       ∀ op ∈ hpaPatches h.spec, op.path ≠ .maxReplicas) ∧
    (HpaSpec.applyPatches h.spec (hpaPatches h.spec)).minReplicas = some 1 ∧
    (HpaSpec.applyPatches h.spec (hpaPatches h.spec)).maxReplicas = 1 ∧
    hpaPatches (HpaSpec.applyPatches h.spec (hpaPatches h.spec)) = [] := by
  obtain ⟨ns, name, anns, mn, mx⟩ := h
  simp only at hskip ⊢
  have happ := hpaApply_eq mn mx
  refine ⟨?_, ?_, ?_, ?_, ?_, ?_, ?_, ?_, ?_⟩
  · simp [handleMutateHpaCore, hskip, mutateResponse, AdmissionResponse.patchOps]
  · intro hmn
    simp [hpaPatches, hmn]
  · intro m hm hne
    simp [hpaPatches, hm, hne]
  · intro hm1 op hop
    by_cases hx : mx = 1
    · simp [hpaPatches, hm1, hx] at hop
    · simp [hpaPatches, hm1, hx] at hop
      subst hop
      simp
  · intro hx
    rcases mn with _ | m <;> simp [hpaPatches, hx]
  · intro hx op hop
    rcases mn with _ | m
    · simp [hpaPatches, hx] at hop
      subst hop
      simp
    · by_cases hm : m = 1
      · simp [hpaPatches, hm, hx] at hop
      · simp [hpaPatches, hm, hx] at hop
        subst hop
        simp
  · rw [happ]
  · rw [happ]
  · rw [happ]
    rfl

/-- The spec's concrete HPA scenario: no minReplicas, maxReplicas = 10. -/
def hpaW : HpaObj := ⟨"default", "h", none, ⟨none, 10⟩⟩

/-- Witness for C6: add minReplicas=1 and replace maxReplicas=1 are emitted,
the applied spec is pinned at 1/1, and regeneration is empty. -/
theorem C6_hpa_witness :
    (⟨"add", .minReplicas, some (.int 1)⟩ : PatchOp) ∈ hpaPatches hpaW.spec ∧
    (⟨"replace", .maxReplicas, some (.int 1)⟩ : PatchOp) ∈ hpaPatches hpaW.spec ∧
    (HpaSpec.applyPatches hpaW.spec (hpaPatches hpaW.spec)).maxReplicas = 1 ∧
    hpaPatches (HpaSpec.applyPatches hpaW.spec (hpaPatches hpaW.spec)) = [] :=
  ⟨(C6_hpa "u6" hpaW (by decide)).2.1 rfl,
   (C6_hpa "u6" hpaW (by decide)).2.2.2.2.1 (by decide),
   (C6_hpa "u6" hpaW (by decide)).2.2.2.2.2.2.2.1,
   (C6_hpa "u6" hpaW (by decide)).2.2.2.2.2.2.2.2⟩

/-- C7: For every non-skipped workload routed to the replica endpoint, the
generator emits an add of replicas=1 when the field is absent, a replace
when present and ≠ 1, and nothing when already 1.  StatefulSets are never
routed to the endpoint (modelled from the spec: the routing lives in the
webhook registration, outside the provided sources), so they never receive a
replica patch. -/
theorem C7_replicas (uid : String) (w : Workload)
    (hskip : skipWorkload w = false) :
    (handleMutateReplicasCore uid w).patchOps = replicaPatches w.replicas ∧
    (w.replicas = none →
       replicaPatches w.replicas = [⟨"add", .replicas, some (.int 1)⟩]) ∧
    (∀ r : Int, w.replicas = some r → r ≠ 1 →
       replicaPatches w.replicas = [⟨"replace", .replicas, some (.int 1)⟩]) ∧
    (w.replicas = some 1 → replicaPatches w.replicas = []) ∧
    replicaAdmission "StatefulSet" uid w = none := by
  refine ⟨?_, ?_, ?_, ?_, ?_⟩
  · simp [handleMutateReplicasCore, hskip, mutateResponse,
      AdmissionResponse.patchOps]
  · intro hr
    simp [replicaPatches, hr]
  · intro r hr hne
    simp [replicaPatches, hr, hne]
  · intro hr
    simp [replicaPatches, hr]
  · simp [replicaAdmission, replicaTargetKinds]

/-- A non-skipped Deployment-shaped workload with 3 replicas. -/
def wW : Workload := ⟨"default", "d", none, some 3⟩

/-- Witness for C7: replicas 3 yields a replace to 1, and the StatefulSet
kind is never routed. -/
theorem C7_replicas_witness :
    replicaPatches wW.replicas = [⟨"replace", .replicas, some (.int 1)⟩] ∧
    replicaAdmission "StatefulSet" "u7" wW = none :=
  ⟨(C7_replicas "u7" wW (by decide)).2.2.1 3 rfl (by decide),
   (C7_replicas "u7" wW (by decide)).2.2.2.2⟩

/-- An HPA already at minReplicas = 1, maxReplicas = 1, not skipped. -/
def hpaIdle : HpaObj := ⟨"default", "h", none, ⟨some 1, 1⟩⟩

/-- C8 (counterexample): on a non-skipped HPA already at its target, the
generated patch list is empty, yet the response still populates both
`patchType` and `patch` — refuting "patch and patchType are populated only
when the patch list is non-empty". -/
theorem C8_response_counterexample :
    (handleMutateHpaCore "u8" hpaIdle).patchOps = [] ∧
    (handleMutateHpaCore "u8" hpaIdle).patchType = some "JSONPatch" ∧
    (handleMutateHpaCore "u8" hpaIdle).patch ≠ none := by
  decide

/-- C8 (amended): every admission response emitted by any handler has
`allowed = true` (the webhook never denies, including in the skip path);
`patch`/`patchType` are absent exactly on the skip path and are populated on
every non-skip path — even when the generated patch list is empty. -/
theorem C8_response_amended :
    (∀ (uid : String) (pod : Pod),
       (handleMutateCore uid pod).allowed = true ∧
       (podAdmission uid pod).allowed = true ∧
       (skipPod pod = true → (handleMutateCore uid pod).patchType = none ∧
          (handleMutateCore uid pod).patch = none) ∧
       (skipPod pod = false →
          (handleMutateCore uid pod).patchType = some "JSONPatch" ∧
          (handleMutateCore uid pod).patch = some (podPatches pod))) ∧
    (∀ (uid : String) (h : HpaObj),
       (handleMutateHpaCore uid h).allowed = true ∧
       (skipHpa h = true → (handleMutateHpaCore uid h).patchType = none ∧
          (handleMutateHpaCore uid h).patch = none) ∧
       (skipHpa h = false →
          (handleMutateHpaCore uid h).patchType = some "JSONPatch" ∧
          (handleMutateHpaCore uid h).patch = some (hpaPatches h.spec))) ∧
    (∀ (uid : String) (w : Workload),
       (handleMutateReplicasCore uid w).allowed = true ∧
       (skipWorkload w = true →
          (handleMutateReplicasCore uid w).patchType = none ∧
          (handleMutateReplicasCore uid w).patch = none) ∧
       (skipWorkload w = false →
          (handleMutateReplicasCore uid w).patchType = some "JSONPatch" ∧
          (handleMutateReplicasCore uid w).patch = some (replicaPatches w.replicas))) := by
  refine ⟨?_, ?_, ?_⟩
  · intro uid pod
    refine ⟨?_, ?_, ?_, ?_⟩
    · by_cases hs : skipPod pod = true <;>
        simp [handleMutateCore, hs, skipResponse, mutateResponse]
    · by_cases hn : pod.ns ∈ excludedNamespaces
      · simp [podAdmission, hn, skipResponse]
      · by_cases hs : skipPod pod = true <;>
          simp [podAdmission, hn, handleMutateCore, hs, skipResponse,
            mutateResponse]
    · intro hs
      simp [handleMutateCore, hs, skipResponse]
    · intro hs
      simp [handleMutateCore, hs, mutateResponse]
  · intro uid h
    refine ⟨?_, ?_, ?_⟩
    · by_cases hs : skipHpa h = true <;>
        simp [handleMutateHpaCore, hs, skipResponse, mutateResponse]
    · intro hs
      simp [handleMutateHpaCore, hs, skipResponse]
    · intro hs
      simp [handleMutateHpaCore, hs, mutateResponse]
  · intro uid w
    refine ⟨?_, ?_, ?_⟩
    · by_cases hs : skipWorkload w = true <;>
        simp [handleMutateReplicasCore, hs, skipResponse, mutateResponse]
    · intro hs
      simp [handleMutateReplicasCore, hs, skipResponse]
    · intro hs
      simp [handleMutateReplicasCore, hs, mutateResponse]

/-- Witness for the amended C8 on concrete skipped and non-skipped inputs. -/
theorem C8_response_amended_witness :
    (handleMutateCore "u8b" podSkip).patchType = none ∧
    (handleMutateHpaCore "u8b" hpaW).patchType = some "JSONPatch" ∧
    (handleMutateReplicasCore "u8b" wW).allowed = true :=
  ⟨((C8_response_amended.1 "u8b" podSkip).2.2.1 (by decide)).1,
   ((C8_response_amended.2.1 "u8b" hpaW).2.2 (by decide)).1,
   (C8_response_amended.2.2 "u8b" wW).1⟩

/-- A response-marshal oracle that always fails, and a patch-marshal oracle
that always succeeds. -/
def failMr : Marshal AdmissionResponse := fun _ => .error "boom"

def okMp : Marshal (List PatchOp) := fun _ => .ok "[]"

/-- C9 (counterexample): on the skip path the response-serialization error is
discarded (`respBytes, _ := json.Marshal(response)`): with a failing
response marshaller the handler still answers success with an empty body
instead of a server error — the failure is silently dropped. -/
theorem C9_errors_counterexample :
    handleMutateHttp okMp failMr (some ⟨some ⟨"u9", "Pod", some podSkip⟩⟩)
      = .ok "" ∧
    failMr (skipResponse "u9") = .error "boom" :=
  ⟨rfl, rfl⟩

/-- C9 (amended): decode failures of the envelope or the embedded object
yield a client-error transport status carrying no admission response; on the
mutation path a patch-marshal or response-marshal failure yields a
server-error status; but on the skip path the response-marshal error is
ignored and an empty success body is written. -/
theorem C9_errors_amended {α : Type} (skip : α → Bool)
    (gen : α → List PatchOp) (mp : Marshal (List PatchOp))
    (mr : Marshal AdmissionResponse) :
    (handlerHttp skip gen mp mr none
       = .clientError "failed to unmarshal admission review") ∧
    (∀ (env : Envelope α) (req : RequestData α), env.request = some req →
       req.obj = none →
       handlerHttp skip gen mp mr (some env)
         = .clientError "failed to unmarshal object") ∧
    (∀ (env : Envelope α) (req : RequestData α) (a : α),
       env.request = some req → req.obj = some a → skip a = false →
       ∀ e, mp (gen a) = .error e →
         handlerHttp skip gen mp mr (some env)
           = .serverError "failed to marshal patches") ∧
    (∀ (env : Envelope α) (req : RequestData α) (a : α) (s : String),
       env.request = some req → req.obj = some a → skip a = false →
       mp (gen a) = .ok s →
       ∀ e, mr (mutateResponse req.uid (gen a)) = .error e →
         handlerHttp skip gen mp mr (some env)
           = .serverError "failed to marshal response") ∧
    (∀ (env : Envelope α) (req : RequestData α) (a : α),
       env.request = some req → req.obj = some a → skip a = true →
       ∀ e, mr (skipResponse req.uid) = .error e →
         handlerHttp skip gen mp mr (some env) = .ok "") := by
  refine ⟨rfl, ?_, ?_, ?_, ?_⟩
  · intro env req hr hobj
    obtain ⟨r⟩ := env
    simp only at hr
    subst hr
    simp [handlerHttp, hobj]
  · intro env req a hr hobj hs e hmp
    obtain ⟨r⟩ := env
    simp only at hr
    subst hr
    simp [handlerHttp, hobj, hs, hmp]
  · intro env req a s hr hobj hs hmp e hmr
    obtain ⟨r⟩ := env
    simp only at hr
    subst hr
    simp [handlerHttp, hobj, hs, hmp, hmr]
  · intro env req a hr hobj hs e hmr
    obtain ⟨r⟩ := env
    simp only at hr
    subst hr
    simp [handlerHttp, hobj, hs, hmr]

/-- A patch-marshal oracle that always fails. -/
def failMp : Marshal (List PatchOp) := fun _ => .error "nope"

/-- Witness for the amended C9 at the pod handler on concrete inputs and
oracles. -/
theorem C9_errors_amended_witness :
    handleMutateHttp okMp failMr none
      = .clientError "failed to unmarshal admission review" ∧
    handleMutateHttp failMp failMr (some ⟨some ⟨"u9b", "Pod", some podW⟩⟩)
      = .serverError "failed to marshal patches" ∧
    handleMutateHttp okMp failMr (some ⟨some ⟨"u9b", "Pod", some podSkip⟩⟩)
      = .ok "" :=
  ⟨(C9_errors_amended skipPod podPatches okMp failMr).1,
   (C9_errors_amended skipPod podPatches failMp failMr).2.2.1
     ⟨some ⟨"u9b", "Pod", some podW⟩⟩ ⟨"u9b", "Pod", some podW⟩ podW
     rfl rfl (by decide) "nope" rfl,
   (C9_errors_amended skipPod podPatches okMp failMr).2.2.2.2
     ⟨some ⟨"u9b", "Pod", some podSkip⟩⟩ ⟨"u9b", "Pod", some podSkip⟩ podSkip
     rfl rfl (by decide) "boom" rfl⟩

/-- Nil-request input makes the generic handler shape panic. -/
theorem handlerHttp_nil_request {α : Type} (skip : α → Bool)
    (gen : α → List PatchOp) (mp : Marshal (List PatchOp))
    (mr : Marshal AdmissionResponse) (env : Envelope α)
    (h : env.request = none) :
    handlerHttp skip gen mp mr (some env) = .panicked := by
  obtain ⟨r⟩ := env
  simp only at h
  subst h
  rfl

/-- With a present request pointer the generic handler shape never panics. -/
theorem handlerHttp_not_panicked {α : Type} (skip : α → Bool)
    (gen : α → List PatchOp) (mp : Marshal (List PatchOp))
    (mr : Marshal AdmissionResponse) (env : Envelope α) (req : RequestData α)
    (h : env.request = some req) :
    handlerHttp skip gen mp mr (some env) ≠ .panicked := by
  obtain ⟨r⟩ := env
  simp only at h
  subst h
  rcases hobj : req.obj with _ | a
  · simp [handlerHttp, hobj]
  · by_cases hs : skip a = true
    · rcases hmr : mr (skipResponse req.uid) with e | s <;>
        simp [handlerHttp, hobj, hs, hmr]
    · rcases hmp : mp (gen a) with e | s
      · simp [handlerHttp, hobj, hs, hmp]
      · rcases hmr : mr (mutateResponse req.uid (gen a)) with e | s2 <;>
          simp [handlerHttp, hobj, hs, hmp, hmr]

/-- C10: all three handlers read the embedded object and correlation id
through the envelope's request pointer without a nil guard: a successfully
decoded envelope with a null/absent request is a nil-pointer dereference
(panic), and the handlers never panic when the request is present. -/
theorem C10_nil_request (mp : Marshal (List PatchOp))
    (mr : Marshal AdmissionResponse) :
    (∀ env : Envelope Pod, env.request = none →
       handleMutateHttp mp mr (some env) = .panicked) ∧
    (∀ env : Envelope HpaObj, env.request = none →
       handleMutateHpaHttp mp mr (some env) = .panicked) ∧
    (∀ env : Envelope Workload, env.request = none →
       handleMutateReplicasHttp mp mr (some env) = .panicked) ∧
    (∀ (env : Envelope Pod) (req : RequestData Pod), env.request = some req →
       handleMutateHttp mp mr (some env) ≠ .panicked) ∧
    (∀ (env : Envelope HpaObj) (req : RequestData HpaObj),
       env.request = some req →
       handleMutateHpaHttp mp mr (some env) ≠ .panicked) ∧
    (∀ (env : Envelope Workload) (req : RequestData Workload),
       env.request = some req →
       handleMutateReplicasHttp mp mr (some env) ≠ .panicked) :=
  ⟨fun env h => handlerHttp_nil_request _ _ mp mr env h,
   fun env h => handlerHttp_nil_request _ _ mp mr env h,
   fun env h => handlerHttp_nil_request _ _ mp mr env h,
   fun env req h => handlerHttp_not_panicked _ _ mp mr env req h,
   fun env req h => handlerHttp_not_panicked _ _ mp mr env req h,
   fun env req h => handlerHttp_not_panicked _ _ mp mr env req h⟩

/-- A response-marshal oracle that always succeeds. -/
def okMr : Marshal AdmissionResponse := fun _ => .ok "{}"

/-- Witness for C10: a nil request panics in each handler; a present request
does not. -/
theorem C10_nil_request_witness :
    handleMutateHttp okMp okMr (some ⟨none⟩) = .panicked ∧
    handleMutateHpaHttp okMp okMr (some ⟨none⟩) = .panicked ∧
    handleMutateReplicasHttp okMp okMr (some ⟨none⟩) = .panicked ∧
    handleMutateHttp okMp okMr (some ⟨some ⟨"u10", "Pod", some podW⟩⟩)
      ≠ .panicked :=
  ⟨(C10_nil_request okMp okMr).1 ⟨none⟩ rfl,
   (C10_nil_request okMp okMr).2.1 ⟨none⟩ rfl,
   (C10_nil_request okMp okMr).2.2.1 ⟨none⟩ rfl,
   (C10_nil_request okMp okMr).2.2.2.1 ⟨some ⟨"u10", "Pod", some podW⟩⟩
     ⟨"u10", "Pod", some podW⟩ rfl⟩

end ResourceRemover
